import Mathlib

/-!
Verification of the graph-result-to-visualization extraction pipeline of the
`graphdb` repository (file `backend/services.py`, class `GraphQAService`).

The Python methods are shallowly embedded as executable Lean functions over
`List Char` (strings) and an explicit `PValue` type modelling the JSON-like
values the Neo4j driver returns (`None`, dates, dicts, lists, tuples, ints,
floats, strs, bools, and arbitrary other objects carried by their textual
representation).  Stateful accumulation (the `nodes` dict and `relationships`
list of `_extract_graph_data`) is modelled by explicit state passing over an
insertion-ordered association list, mirroring Python dict semantics.
-/

/-! ## Python string primitives -/

/-- Python `\w` word character (ASCII fragment: letters, digits, underscore). -/
def wordChar (c : Char) : Bool := c.isAlphanum || c = '_'

/-- Python whitespace stripped by `str.strip()`. -/
def pySpace (c : Char) : Bool :=
  c = ' ' || c = '\t' || c = '\n' || c = '\x0d' || c = '\x0b' || c = '\x0c'

/-- Python `str.strip()`: drop leading and trailing whitespace. -/
def pyStrip (l : List Char) : List Char :=
  ((l.dropWhile pySpace).reverse.dropWhile pySpace).reverse

/-- Python `str.upper()` (ASCII fragment, matching the queries handled here). -/
def pyUpperL (l : List Char) : List Char := l.map Char.toUpper

/-- Python `str.capitalize()`: first character upper-cased, the rest lower-cased. -/
def pyCapitalize (s : String) : String :=
  match s.data with
  | [] => ""
  | c :: rest => String.mk (c.toUpper :: rest.map Char.toLower)

/-- Index of the first occurrence of `needle` in `hay` (Python `str.find`,
returning `none` for Python's `-1`). -/
def findSub (hay needle : List Char) : Option Nat :=
  match hay with
  | [] => if needle.isEmpty then some 0 else none
  | _ :: rest =>
      if needle.isPrefixOf hay then some 0
      else match findSub rest needle with
        | some i => some (i + 1)
        | none => none

/-- Python `str.find(needle, start)`: search from position `start`. -/
def findFrom (hay needle : List Char) (start : Nat) : Option Nat :=
  (findSub (hay.drop start) needle).map (· + start)

/-- Python `needle in hay` on strings. -/
def containsSub (hay needle : List Char) : Bool := (findSub hay needle).isSome

/-- Python `str.endswith` on `String`s. -/
def pyEndsWith (s suffix : String) : Bool := List.isSuffixOf suffix.data s.data

/-- Python `", ".join(...)`. -/
def commaJoin : List String → String
  | [] => ""
  | [x] => x
  | x :: xs => x ++ ", " ++ commaJoin xs

/-! ## The regex scans of `_create_graph_query` / `_extract_variables_from_pattern`

The source uses `re.findall` with the patterns
`\((\w+)(?::[\w]+(?:\|[\w]+)*)?\)` (node variables) and
`\[(\w+)(?::[\w]+)?\]` (relationship variables).  Both patterns are
deterministic (no productive backtracking: the quantified classes `\w+` can
never give back a character that lets the following `:`/`|`/closing delimiter
match), so matching is faithful greedy scanning.  `re.findall` returns
non-overlapping matches scanning left to right; since a match contains exactly
one opening delimiter (its first character), restarting the scan after a match
is equivalent to restarting anywhere inside it, and the fuel below (initial
string length) is strictly larger than the number of scan steps. -/

/-- Consume a maximal prefix of the form `(\|[\w]+)*` (the alternation tail of
a node label such as `:A|B|C`), returning the remainder. -/
def altTail : Nat → List Char → List Char
  | 0, l => l
  | fuel + 1, l =>
      match l with
      | '|' :: rest =>
          let (run, rest1) := rest.span wordChar
          if run.isEmpty then l else altTail fuel rest1
      | _ => l

/-- Attempt to match `\((\w+)(?::[\w]+(?:\|[\w]+)*)?\)` at the head of `l`;
on success return the captured group and the remainder after the match. -/
def matchNodeAt (l : List Char) : Option (String × List Char) :=
  match l with
  | '(' :: rest =>
      let (run, rest1) := rest.span wordChar
      if run.isEmpty then none
      else
        let rest2 :=
          match rest1 with
          | ':' :: r2 =>
              let (run2, r3) := r2.span wordChar
              if run2.isEmpty then rest1 else altTail r3.length r3
          | _ => rest1
        match rest2 with
        | ')' :: rest3 => some (String.mk run, rest3)
        | _ => none
  | _ => none

/-- Attempt to match `\[(\w+)(?::[\w]+)?\]` at the head of `l`. -/
def matchRelAt (l : List Char) : Option (String × List Char) :=
  match l with
  | '[' :: rest =>
      let (run, rest1) := rest.span wordChar
      if run.isEmpty then none
      else
        let rest2 :=
          match rest1 with
          | ':' :: r2 =>
              let (run2, r3) := r2.span wordChar
              if run2.isEmpty then rest1 else r3
          | _ => rest1
        match rest2 with
        | ']' :: rest3 => some (String.mk run, rest3)
        | _ => none
  | _ => none

/-- `re.findall` scan for the node pattern. -/
def scanNodes : Nat → List Char → List String
  | 0, _ => []
  | _ + 1, [] => []
  | fuel + 1, l@(_ :: rest) =>
      match matchNodeAt l with
      | some (name, rest1) => name :: scanNodes fuel rest1
      | none => scanNodes fuel rest

/-- `re.findall` scan for the relationship pattern. -/
def scanRels : Nat → List Char → List String
  | 0, _ => []
  | _ + 1, [] => []
  | fuel + 1, l@(_ :: rest) =>
      match matchRelAt l with
      | some (name, rest1) => name :: scanRels fuel rest1
      | none => scanRels fuel rest

/-- `re.findall(node_pattern, ...)` group captures, in match order. -/
def findNodes (l : List Char) : List String := scanNodes l.length l

/-- `re.findall(rel_pattern, ...)` group captures, in match order. -/
def findRels (l : List Char) : List String := scanRels l.length l

/-- `list(dict.fromkeys(...))`: de-duplicate keeping the first occurrence. -/
def dedupAux : List String → List String → List String
  | _, [] => []
  | seen, x :: xs =>
      if seen.contains x then dedupAux seen xs else x :: dedupAux (x :: seen) xs

/-- De-duplicate a list of variable names preserving first-seen order. -/
def dedupKeepFirst (l : List String) : List String := dedupAux [] l

example : findNodes "MATCH (p:Person)-[r:ACTED_IN]->(m:Movie)".data = ["p", "m"] := by decide
example : findRels "MATCH (p:Person)-[r:ACTED_IN]->(m:Movie)".data = ["r"] := by decide
example : findSub "MATCH (P) RETURN P".data "RETURN".data = some 10 := by decide
example : pyStrip "  a b ".data = "a b".data := by decide

/-! ## Clause boundaries (`_create_graph_query`, lines 419-498, and
`_extract_variables_from_pattern`, lines 500-538)

Both methods locate `MATCH` in the upper-cased query, then compute the end of
the match pattern as the first occurrence (searching from the match index) of
any keyword in `["WHERE", "RETURN", "ORDER BY", "LIMIT", "WITH"]`, defaulting
to the end of the text. -/

def endKeywords : List (List Char) :=
  ["WHERE".data, "RETURN".data, "ORDER BY".data, "LIMIT".data, "WITH".data]

/-- `match_idx = query_upper.find("MATCH")`, defaulted (only used under the
guard that `MATCH` occurs). -/
def matchIdxOf (q : String) : Nat :=
  (findSub (pyUpperL q.data) "MATCH".data).getD 0

/-- The `pattern_end` loop shared by both methods. -/
def patternEndOf (q : String) : Nat :=
  let upper := pyUpperL q.data
  let mi := matchIdxOf q
  endKeywords.foldl
    (fun pe kw =>
      match findFrom upper kw mi with
      | some i => if i < pe then i else pe
      | none => pe)
    q.data.length

/-- `original_query[match_idx:pattern_end]` (not stripped; as used by
`_extract_variables_from_pattern`). -/
def rawMatchPattern (q : String) : List Char :=
  (q.data.drop (matchIdxOf q)).take (patternEndOf q - matchIdxOf q)

/-- `original_query[match_idx:pattern_end].strip()` (as used by
`_create_graph_query`). -/
def matchPatternOf (q : String) : List Char := pyStrip (rawMatchPattern q)

/-- The `where_clause` of `_create_graph_query`: `" " + stripped span` from the
`WHERE` keyword up to `RETURN` (or end of text), present only when `WHERE`
occurs, and before `RETURN` if `RETURN` occurs; otherwise the empty string. -/
def whereClauseOf (q : String) : List Char :=
  let upper := pyUpperL q.data
  let mi := matchIdxOf q
  match findFrom upper "WHERE".data mi with
  | none => []
  | some wi =>
      match findFrom upper "RETURN".data mi with
      | some ri =>
          if wi < ri then ' ' :: pyStrip ((q.data.drop wi).take (ri - wi)) else []
      | none => ' ' :: pyStrip ((q.data.drop wi).take (q.data.length - wi))

/-- `nodes = list(dict.fromkeys(re.findall(node_pattern, match_pattern)))`. -/
def extractedNodes (q : String) : List String := dedupKeepFirst (findNodes (matchPatternOf q))

/-- `rels = list(dict.fromkeys(re.findall(rel_pattern, match_pattern)))`. -/
def extractedRels (q : String) : List String := dedupKeepFirst (findRels (matchPatternOf q))

/-- `return_items = nodes + rels` (the two `extend` calls). -/
def returnItemsOf (q : String) : List String := extractedNodes q ++ extractedRels q

/-- The `labels(<item>) as <item>_labels` result column added for node items. -/
def labelsAlias (item : String) : String :=
  "labels(" ++ item ++ ") as " ++ item ++ "_labels"

/-- The `return_parts` loop: every item is emitted, and any item that is a
member of `nodes` is additionally followed by its labels alias. -/
def returnPartsOf (q : String) : List String :=
  (returnItemsOf q).flatMap
    (fun item =>
      if (extractedNodes q).contains item then [item, labelsAlias item] else [item])

/-- `GraphQAService._create_graph_query` (services.py lines 419-498): rewrite a
query so that it returns whole nodes/relationships plus node label lists.
Queries without `MATCH`, or from which no variables can be extracted, are
returned unchanged.  (The defensive `except` wrapper of the source returns the
input unchanged on exceptions; the embedded computation is total.) -/
def createGraphQuery (q : String) : String :=
  if ¬ containsSub (pyUpperL q.data) "MATCH".data then q
  else if returnItemsOf q = [] then q
  else
    String.mk
      (matchPatternOf q ++ whereClauseOf q ++ " RETURN ".data
        ++ (commaJoin (returnPartsOf q)).data ++ " LIMIT 50".data)

/-- Ordered node-variable captures of `_extract_variables_from_pattern`
(the `re.findall` result, before the `set(...)` conversion). -/
def evpOrderedNodes (q : String) : List String := findNodes (rawMatchPattern q)

/-- Ordered relationship-variable captures of `_extract_variables_from_pattern`. -/
def evpOrderedRels (q : String) : List String := findRels (rawMatchPattern q)

/-- `GraphQAService._extract_variables_from_pattern` (services.py lines
500-538): node and relationship variable names of the match pattern.  The
source returns Python `set`s (whose iteration order is unspecified), modelled
by `Finset String`; the first-seen scan order is exposed by
`evpOrderedNodes` / `evpOrderedRels`. -/
def extractVariablesFromPattern (q : String) : Finset String × Finset String :=
  match findSub (pyUpperL q.data) "MATCH".data with
  | none => (∅, ∅)
  | some _ => ((evpOrderedNodes q).toFinset, (evpOrderedRels q).toFinset)

example :
    createGraphQuery "MATCH (p:Person)-[r:ACTED_IN]->(m:Movie) RETURN p.name"
      = "MATCH (p:Person)-[r:ACTED_IN]->(m:Movie) RETURN p, labels(p) as p_labels, m, labels(m) as m_labels, r LIMIT 50" := by
  decide

example :
    extractVariablesFromPattern "MATCH (p:Person)-[r:ACTED_IN]->(m:Movie) RETURN p.name"
      = ({"p", "m"}, {"r"}) := by decide

example :
    createGraphQuery "MATCH (a)-[a]->(b) RETURN a"
      = "MATCH (a)-[a]->(b) RETURN a, labels(a) as a_labels, b, labels(b) as b_labels, a, labels(a) as a_labels LIMIT 50" := by
  decide

/-! ## Property values

`PValue` models the values the Neo4j driver hands back in result rows:
`None`, `neo4j.time.Date` / `neo4j.time.DateTime` (carried by their `str()`
text), dicts, lists, tuples, ints, floats (carried by their decimal text),
strs, bools, and any other object (carried by its `str()` text).  Dicts and
sequences are represented by the mutual types `PEntries` / `PList` so that all
recursion below is structural. -/

mutual

inductive PValue where
  | vnull
  | vdate (s : String)
  | vdatetime (s : String)
  | vmap (es : PEntries)
  | vlist (xs : PList)
  | vtuple (xs : PList)
  | vint (n : Int)
  | vfloat (s : String)
  | vstr (s : String)
  | vbool (b : Bool)
  | vother (s : String)
deriving DecidableEq

inductive PList where
  | nil
  | cons (v : PValue) (rest : PList)
deriving DecidableEq

inductive PEntries where
  | nil
  | cons (k : String) (v : PValue) (rest : PEntries)
deriving DecidableEq

end

/-- Keys of a dict, in insertion order. -/
def entryKeys : PEntries → List String
  | .nil => []
  | .cons k _ rest => k :: entryKeys rest

/-- Python `dict.get(k)`: the value at key `k`, or `None` (here `none`).
Dict keys are unique, so first-match lookup is dict lookup. -/
def pyGet : PEntries → String → Option PValue
  | .nil, _ => none
  | .cons k v rest, key => if k = key then some v else pyGet rest key

/-- Python truthiness of a `PValue` (`bool(value)`).  Floats are carried by
their decimal text; only the texts a zero float prints as are falsy. -/
def truthy : PValue → Bool
  | .vnull => false
  | .vbool b => b
  | .vint n => n != 0
  | .vfloat s => s != "0.0" && s != "-0.0" && s != "0"
  | .vstr s => s != ""
  | .vdate _ => true
  | .vdatetime _ => true
  | .vmap es => match es with | .nil => false | .cons _ _ _ => true
  | .vlist xs => match xs with | .nil => false | .cons _ _ => true
  | .vtuple xs => match xs with | .nil => false | .cons _ _ => true
  | .vother _ => true

/-- Python `a or b or ...`: the first truthy operand, `none` when all operands
are falsy (callers supply the final fallback operand via `Option.getD`). -/
def firstTruthy : List (Option PValue) → Option PValue
  | [] => none
  | o :: rest =>
      match o with
      | some v => if truthy v then some v else firstTruthy rest
      | none => firstTruthy rest

mutual

/-- Python `str(value)`.  Scalars print as in Python; containers print with
brackets and `repr`-quoted strings (an adequate rendering: no claim evaluates
`str()` on a container). -/
def pyStr : PValue → String
  | .vnull => "None"
  | .vdate s => s
  | .vdatetime s => s
  | .vmap es => "\x7b" ++ pyReprEntries es ++ "\x7d"
  | .vlist xs => "[" ++ pyReprList xs ++ "]"
  | .vtuple xs => "(" ++ pyReprList xs ++ ")"
  | .vint n => toString n
  | .vfloat s => s
  | .vstr s => s
  | .vbool b => if b then "True" else "False"
  | .vother s => s

/-- Python `repr(value)` as used for container elements: strings are quoted,
everything else prints as `str()`. -/
def pyReprV : PValue → String
  | .vnull => "None"
  | .vdate s => s
  | .vdatetime s => s
  | .vmap es => "\x7b" ++ pyReprEntries es ++ "\x7d"
  | .vlist xs => "[" ++ pyReprList xs ++ "]"
  | .vtuple xs => "(" ++ pyReprList xs ++ ")"
  | .vint n => toString n
  | .vfloat s => s
  | .vstr s => "\x27" ++ s ++ "\x27"
  | .vbool b => if b then "True" else "False"
  | .vother s => s

def pyReprList : PList → String
  | .nil => ""
  | .cons v .nil => pyReprV v
  | .cons v rest => pyReprV v ++ ", " ++ pyReprList rest

def pyReprEntries : PEntries → String
  | .nil => ""
  | .cons k v .nil => "\x27" ++ k ++ "\x27: " ++ pyReprV v
  | .cons k v rest => "\x27" ++ k ++ "\x27: " ++ pyReprV v ++ ", " ++ pyReprEntries rest

end

/-! ## `_serialize_property` (services.py lines 276-291) -/

mutual

/-- `GraphQAService._serialize_property`: convert a driver value to a
JSON-serializable value.  `None` passes through; dates and datetimes become
their text; dicts recurse key-wise; lists and tuples recurse element-wise
(both produce a list); int/float/str/bool pass through; anything else becomes
its text. -/
def serializeProp : PValue → PValue
  | .vnull => .vnull
  | .vdate s => .vstr s
  | .vdatetime s => .vstr s
  | .vmap es => .vmap (serializeEntries es)
  | .vlist xs => .vlist (serializeList xs)
  | .vtuple xs => .vlist (serializeList xs)
  | .vint n => .vint n
  | .vfloat s => .vfloat s
  | .vstr s => .vstr s
  | .vbool b => .vbool b
  | .vother s => .vstr s

/-- Element-wise serialization of a list/tuple value. -/
def serializeList : PList → PList
  | .nil => .nil
  | .cons v rest => .cons (serializeProp v) (serializeList rest)

/-- Key-wise serialization of a dict value (the comprehension
`{k: self._serialize_property(v) for k, v in value.items()}`). -/
def serializeEntries : PEntries → PEntries
  | .nil => .nil
  | .cons k v rest => .cons k (serializeProp v) (serializeEntries rest)

end

mutual

/-- A value is JSON-safe when it contains no date/datetime/tuple/other
constructor anywhere (the shapes `_serialize_property` exists to eliminate). -/
def jsonSafeProp : PValue → Bool
  | .vnull => true
  | .vdate _ => false
  | .vdatetime _ => false
  | .vmap es => jsonSafeEntries es
  | .vlist xs => jsonSafeList xs
  | .vtuple _ => false
  | .vint _ => true
  | .vfloat _ => true
  | .vstr _ => true
  | .vbool _ => true
  | .vother _ => false

def jsonSafeList : PList → Bool
  | .nil => true
  | .cons v rest => jsonSafeProp v && jsonSafeList rest

def jsonSafeEntries : PEntries → Bool
  | .nil => true
  | .cons _ v rest => jsonSafeProp v && jsonSafeEntries rest

end

mutual

theorem serializeProp_jsonSafe : ∀ v, jsonSafeProp (serializeProp v) = true
  | .vnull => rfl
  | .vdate _ => rfl
  | .vdatetime _ => rfl
  | .vmap es => by simpa [serializeProp, jsonSafeProp] using serializeEntries_jsonSafe es
  | .vlist xs => by simpa [serializeProp, jsonSafeProp] using serializeList_jsonSafe xs
  | .vtuple xs => by simpa [serializeProp, jsonSafeProp] using serializeList_jsonSafe xs
  | .vint _ => rfl
  | .vfloat _ => rfl
  | .vstr _ => rfl
  | .vbool _ => rfl
  | .vother _ => rfl

theorem serializeList_jsonSafe : ∀ xs, jsonSafeList (serializeList xs) = true
  | .nil => rfl
  | .cons v rest => by
      simp [serializeList, jsonSafeList, serializeProp_jsonSafe v, serializeList_jsonSafe rest]

theorem serializeEntries_jsonSafe : ∀ es, jsonSafeEntries (serializeEntries es) = true
  | .nil => rfl
  | .cons k v rest => by
      simp [serializeEntries, jsonSafeEntries, serializeProp_jsonSafe v,
        serializeEntries_jsonSafe rest]

end

theorem serializeEntries_keys : ∀ es, entryKeys (serializeEntries es) = entryKeys es
  | .nil => rfl
  | .cons k v rest => by simp [serializeEntries, entryKeys, serializeEntries_keys rest]

/-! ## Hash fallback of the synthetic node id

When a node property bag has no truthy `name`/`id`/`title`, the source derives
the id from `str(hash(frozenset(value.items())))`.  Python's `hash` is
runtime-dependent (string hashing is randomized per process; the spec flags
this fallback as an unspecified, request-scoped identity), so it is modelled
by a fixed deterministic stand-in.  `frozenset(...)` raises `TypeError` when
any value is unhashable (a dict or list); that exception is caught by the
per-value handler in the source, skipping the node, and is modelled by the
hashability check below. -/

/-- Deterministic stand-in for Python string hashing. -/
def strHash (s : String) : Int :=
  s.data.foldl (fun h c => h * 31 + Int.ofNat c.toNat) 7

mutual

/-- Deterministic stand-in for Python `hash` on hashable values (dicts and
lists are unhashable and never reach this function). -/
def pyHashV : PValue → Int
  | .vnull => 0
  | .vdate s => strHash s
  | .vdatetime s => strHash s
  | .vmap _ => 0
  | .vlist _ => 0
  | .vtuple xs => pyHashL xs
  | .vint n => n
  | .vfloat s => strHash s
  | .vstr s => strHash s
  | .vbool b => if b then 1 else 0
  | .vother s => strHash s

def pyHashL : PList → Int
  | .nil => 1000003
  | .cons v rest => pyHashL rest * 1000003 + pyHashV v

end

mutual

/-- Whether Python `hash` would succeed on the value (dicts and lists are
unhashable; a tuple is hashable when all its elements are). -/
def hashableV : PValue → Bool
  | .vmap _ => false
  | .vlist _ => false
  | .vtuple xs => hashableL xs
  | _ => true

def hashableL : PList → Bool
  | .nil => true
  | .cons v rest => hashableV v && hashableL rest

end

/-- Whether `frozenset(value.items())` succeeds: every dict value hashable. -/
def entriesHashable : PEntries → Bool
  | .nil => true
  | .cons _ v rest => hashableV v && entriesHashable rest

/-- Order-insensitive stand-in for `hash(frozenset(value.items()))`. -/
def pyHashEntries : PEntries → Int
  | .nil => 0
  | .cons k v rest => strHash k * 31 + pyHashV v + pyHashEntries rest

/-! ## Graph payload data model (`_extract_graph_data`, services.py lines
293-417) -/

/-- A reconstructed node: `{'id', 'label', 'labels', 'properties'}`.  `labels`
holds the raw label-list value from the row (or the capitalized-variable-name
fallback); `properties` is the serialized property bag. -/
structure GraphNode where
  id : String
  label : String
  labels : PList
  properties : PEntries
deriving DecidableEq

/-- A reconstructed relationship: `{'type', 'startNode', 'endNode',
'properties'}`.  The source stores the raw `type` value (field `rtype` here,
`type` being reserved in Lean) and stringifies the endpoints. -/
structure GraphRelationship where
  rtype : PValue
  startNode : String
  endNode : String
  properties : PEntries
deriving DecidableEq

/-- The returned payload `{'nodes': ..., 'relationships': ...}`. -/
structure GraphPayload where
  nodes : List GraphNode
  relationships : List GraphRelationship
deriving DecidableEq

/-- One tabular record returned by the visualization query: column name to
value, in column order. -/
abbrev RawRow : Type := List (String × PValue)

/-- Accumulator of the reconstruction loop: the insertion-ordered `nodes`
dict (modelled as an association list keyed by synthetic id) and the
`relationships` list. -/
structure ExtractState where
  nodes : List (String × GraphNode)
  rels : List GraphRelationship
deriving DecidableEq

/-- Lookup in the insertion-ordered nodes dict (`node_id not in nodes`). -/
def lookupNode : List (String × GraphNode) → String → Option GraphNode
  | [], _ => none
  | (k, n) :: rest, key => if k = key then some n else lookupNode rest key

/-- The first pass over a record collects every column `<var>_labels` whose
value is a list into `labels_map`; `labels_map.get(key)` therefore yields the
value of the last list-valued column named `key + "_labels"` (later dict
assignments overwrite earlier ones). -/
def labelsMapGet (row : RawRow) (key : String) : Option PList :=
  row.foldl
    (fun acc kv =>
      if kv.1 = key ++ "_labels" then
        match kv.2 with
        | .vlist xs => some xs
        | _ => acc
      else acc)
    none

/-- `node_id_prop = value.get('name') or value.get('id') or value.get('title')
or str(hash(frozenset(value.items())))`.  `none` models the `TypeError` raised
by `frozenset` on unhashable values (caught by the per-value handler: the node
is skipped). -/
def nodeIdProp (es : PEntries) : Option PValue :=
  match firstTruthy [pyGet es "name", pyGet es "id", pyGet es "title"] with
  | some v => some v
  | none =>
      if entriesHashable es then some (.vstr (toString (pyHashEntries es))) else none

/-- `label = value.get('name') or value.get('title') or value.get('id') or
key`, then `str(label)`.  Note the preference order name, title, id — it
differs from the synthetic id's order name, id, title. -/
def displayLabel (es : PEntries) (key : String) : String :=
  pyStr ((firstTruthy [pyGet es "name", pyGet es "title", pyGet es "id"]).getD (.vstr key))

/-- The node the loop would insert for column `key` with property bag `es`
under synthetic id `nid` (labels from the row's labels map, falling back to
`[key.capitalize()]`; properties serialized). -/
def mkNode (row : RawRow) (key : String) (es : PEntries) (nid : String) : GraphNode :=
  { id := nid
    label := displayLabel es key
    labels := (labelsMapGet row key).getD (PList.cons (.vstr (pyCapitalize key)) .nil)
    properties := serializeEntries es }

/-- The node branch of the loop body (`if key in node_vars`): derive the
synthetic id; skip on `TypeError`; insert only when the id is not already a
key of `nodes` (re-encountering an id changes nothing). -/
def processNode (row : RawRow) (st : ExtractState) (key : String) (es : PEntries) :
    ExtractState :=
  match nodeIdProp es with
  | none => st
  | some prop =>
      let nid := key ++ "_" ++ pyStr prop
      match lookupNode st.nodes nid with
      | some _ => st
      | none => { st with nodes := st.nodes ++ [(nid, mkNode row key es nid)] }

/-- `{k: serialized v for k, v in value.items() if k not in ['type', 'start',
'end']}`. -/
def filterRelEntries : PEntries → PEntries
  | .nil => .nil
  | .cons k v rest =>
      if k = "type" || k = "start" || k = "end" then filterRelEntries rest
      else .cons k v (filterRelEntries rest)

/-- The relationship branch of the loop body (`elif key in rel_vars`):
`type` defaults to `'RELATED_TO'`; the relationship is appended only when
`start` and `end` are both truthy (`if start_id and end_id:`); endpoints are
stringified; remaining entries are serialized as properties.  Appending is
unconditional on the existing list: relationships are never de-duplicated. -/
def processRel (st : ExtractState) (es : PEntries) : ExtractState :=
  let relType := (pyGet es "type").getD (.vstr "RELATED_TO")
  match pyGet es "start", pyGet es "end" with
  | some s, some e =>
      if truthy s && truthy e then
        { st with
          rels := st.rels ++
            [{ rtype := relType
               startNode := pyStr s
               endNode := pyStr e
               properties := serializeEntries (filterRelEntries es) }] }
      else st
  | _, _ => st

/-- The second-pass loop body for one column: skip `_labels` columns, skip
`None`, and only dict values are considered; node-variable membership is
checked before relationship-variable membership. -/
def processColumn (nodeVars relVars : Finset String) (row : RawRow)
    (st : ExtractState) (col : String × PValue) : ExtractState :=
  if pyEndsWith col.1 "_labels" then st
  else
    match col.2 with
    | .vnull => st
    | .vmap es =>
        if col.1 ∈ nodeVars then processNode row st col.1 es
        else if col.1 ∈ relVars then processRel st es
        else st
    | _ => st

/-- Process one record (first pass folded into `labelsMapGet`). -/
def processRow (nodeVars relVars : Finset String) (st : ExtractState) (row : RawRow) :
    ExtractState :=
  row.foldl (processColumn nodeVars relVars row) st

/-- Process all records starting from the empty accumulator. -/
def processRows (nodeVars relVars : Finset String) (rows : List RawRow) : ExtractState :=
  rows.foldl (processRow nodeVars relVars) ⟨[], []⟩

/-- `GraphQAService._extract_graph_data` (services.py lines 293-417), given
the rows the external graph executor returned for the rewritten query: absent
when the query has no `MATCH`, otherwise the folded payload, or absent when
both accumulators are empty.  (The top-level `except` returning `None` covers
only the external query execution, which is outside the embedding.) -/
def extractGraphData (rows : List RawRow) (cypher : String) : Option GraphPayload :=
  if ¬ containsSub (pyUpperL cypher.data) "MATCH".data then none
  else
    let vars := extractVariablesFromPattern cypher
    let st := processRows vars.1 vars.2 rows
    if st.nodes.length > 0 ∨ st.rels.length > 0 then
      some ⟨st.nodes.map (·.2), st.rels⟩
    else none

/-! ## Orchestrator error handling (`GraphQAService.query`, services.py lines
197-274)

The chain invocation is the external collaborator; its outcome is modelled as
`Except String ChainSuccess` (the error carrying `str(e)`).  On success the
method assembles answer, generated query and the best-effort graph payload
with `error = None`; on any exception it returns a dict holding only an
`error` entry (all other keys absent, modelled as `none`), chosen by whether
the exception text contains the store syntax-error marker. -/

/-- The successful chain outcome, after the intermediate-step plumbing: the
answer text, the generated query, and the reconstructed payload (if any). -/
structure ChainSuccess where
  answer : String
  generatedCypher : String
  graphData : Option GraphPayload

/-- The response dict of `GraphQAService.query`; `none` models an absent key. -/
structure QueryResponse where
  answer : Option String
  generatedCypher : Option String
  graphData : Option GraphPayload
  error : Option String
deriving DecidableEq

/-- The store syntax-error marker tested against `str(e)`. -/
def errMarker : String := "Neo.ClientError.Statement.SyntaxError"

/-- The fixed user-facing message for store syntax errors. -/
def rephraseMessage : String :=
  "The LLM generated an invalid Cypher query. Please try rephrasing your question."

/-- The `except Exception as e` classifier of `GraphQAService.query`. -/
def classifyChainError (e : String) : QueryResponse :=
  if containsSub e.data errMarker.data then
    { answer := none, generatedCypher := none, graphData := none,
      error := some rephraseMessage }
  else
    { answer := none, generatedCypher := none, graphData := none,
      error := some ("An error occurred: " ++ e) }

/-- `GraphQAService.query` at its boundary: a total function of the chain
outcome — every failure path returns a value. -/
def queryOutcome (outcome : Except String ChainSuccess) : QueryResponse :=
  match outcome with
  | .ok r =>
      { answer := some r.answer, generatedCypher := some r.generatedCypher,
        graphData := r.graphData, error := none }
  | .error e => classifyChainError e

example :
    extractGraphData
      [[("p", .vmap (.cons "name" (.vstr "Tom Hanks") .nil)),
        ("p_labels", .vlist (.cons (.vstr "Person") .nil)),
        ("m", .vmap (.cons "title" (.vstr "Big") .nil)),
        ("m_labels", .vlist (.cons (.vstr "Movie") .nil))]]
      "MATCH (p:Person)-[r:ACTED_IN]->(m:Movie) RETURN p.name"
      = some
          ⟨[{ id := "p_Tom Hanks", label := "Tom Hanks",
              labels := .cons (.vstr "Person") .nil,
              properties := .cons "name" (.vstr "Tom Hanks") .nil },
            { id := "m_Big", label := "Big",
              labels := .cons (.vstr "Movie") .nil,
              properties := .cons "title" (.vstr "Big") .nil }],
           []⟩ := by decide

example : extractGraphData [] "MATCH (p) RETURN p" = none := by decide

example :
    queryOutcome (.error "boom Neo.ClientError.Statement.SyntaxError boom")
      = { answer := none, generatedCypher := none, graphData := none,
          error := some rephraseMessage } := by decide

/-! ## Proof layer: projections of the reconstruction loop

`processNode` only touches the `nodes` accumulator and `processRel` only
touches `rels`, so the loop is the product of two independent folds.  The
candidate functions below compute, per column, what each fold would add. -/

/-- The node the column would insert (synthetic id and `GraphNode`), when the
column passes every guard of the node branch; `none` otherwise. -/
def nodeCand (nodeVars : Finset String) (row : RawRow) (c : String × PValue) :
    Option (String × GraphNode) :=
  if pyEndsWith c.1 "_labels" then none
  else
    match c.2 with
    | .vmap es =>
        if c.1 ∈ nodeVars then
          match nodeIdProp es with
          | some prop =>
              some (c.1 ++ "_" ++ pyStr prop, mkNode row c.1 es (c.1 ++ "_" ++ pyStr prop))
          | none => none
        else none
    | _ => none

/-- The relationship the column appends, when it passes every guard of the
relationship branch; `none` otherwise. -/
def relCand (nodeVars relVars : Finset String) (c : String × PValue) :
    Option GraphRelationship :=
  if pyEndsWith c.1 "_labels" then none
  else
    match c.2 with
    | .vmap es =>
        if c.1 ∈ nodeVars then none
        else if c.1 ∈ relVars then
          match pyGet es "start", pyGet es "end" with
          | some s, some e =>
              if truthy s && truthy e then
                some { rtype := (pyGet es "type").getD (.vstr "RELATED_TO")
                       startNode := pyStr s
                       endNode := pyStr e
                       properties := serializeEntries (filterRelEntries es) }
              else none
          | _, _ => none
        else none
    | _ => none

/-- One step of the nodes-only fold. -/
def nodesStep (nodeVars : Finset String) (row : RawRow)
    (N : List (String × GraphNode)) (c : String × PValue) : List (String × GraphNode) :=
  match nodeCand nodeVars row c with
  | some (nid, nd) =>
      match lookupNode N nid with
      | some _ => N
      | none => N ++ [(nid, nd)]
  | none => N

theorem processColumn_nodes (nodeVars relVars : Finset String) (row : RawRow)
    (st : ExtractState) (c : String × PValue) :
    (processColumn nodeVars relVars row st c).nodes = nodesStep nodeVars row st.nodes c := by
  obtain ⟨key, value⟩ := c
  unfold processColumn nodesStep nodeCand
  by_cases h : pyEndsWith key "_labels" = true
  · simp [h]
  · simp only [h, Bool.false_eq_true, if_false]
    cases value with
    | vmap es =>
        by_cases hn : key ∈ nodeVars
        · simp only [hn, if_true]
          unfold processNode
          cases hip : nodeIdProp es with
          | none => simp
          | some prop =>
              cases hlk : lookupNode st.nodes (key ++ "_" ++ pyStr prop) <;> simp [hlk]
        · by_cases hr : key ∈ relVars
          · simp only [hn, hr, if_false, if_true]
            unfold processRel
            cases hs : pyGet es "start" <;> cases he : pyGet es "end" <;> simp
            split <;> simp
          · simp [hn, hr]
    | vnull => simp
    | vdate s => simp
    | vdatetime s => simp
    | vlist xs => simp
    | vtuple xs => simp
    | vint n => simp
    | vfloat s => simp
    | vstr s => simp
    | vbool b => simp
    | vother s => simp

theorem processColumn_rels (nodeVars relVars : Finset String) (row : RawRow)
    (st : ExtractState) (c : String × PValue) :
    (processColumn nodeVars relVars row st c).rels
      = st.rels ++ (relCand nodeVars relVars c).toList := by
  obtain ⟨key, value⟩ := c
  unfold processColumn relCand
  by_cases h : pyEndsWith key "_labels" = true
  · simp [h]
  · simp only [h, Bool.false_eq_true, if_false]
    cases value with
    | vmap es =>
        by_cases hn : key ∈ nodeVars
        · simp only [hn, if_true]
          unfold processNode
          cases hip : nodeIdProp es with
          | none => simp
          | some prop =>
              cases hlk : lookupNode st.nodes (key ++ "_" ++ pyStr prop) <;> simp [hlk]
        · by_cases hr : key ∈ relVars
          · simp only [hn, hr, if_false, if_true]
            unfold processRel
            cases hs : pyGet es "start" <;> cases he : pyGet es "end" <;> simp
            split <;> simp
          · simp [hn, hr]
    | vnull => simp
    | vdate s => simp
    | vdatetime s => simp
    | vlist xs => simp
    | vtuple xs => simp
    | vint n => simp
    | vfloat s => simp
    | vstr s => simp
    | vbool b => simp
    | vother s => simp

/-- Keys (synthetic ids) of the nodes dict, in insertion order. -/
def keysOf (N : List (String × GraphNode)) : List String := N.map (·.1)

theorem lookupNode_none_iff : ∀ (N : List (String × GraphNode)) (k : String),
    lookupNode N k = none ↔ k ∉ keysOf N
  | [], k => by simp [lookupNode, keysOf]
  | (k0, n0) :: rest, k => by
      by_cases h : k0 = k
      · simp [lookupNode, keysOf, h]
      · simp [lookupNode, keysOf, h, lookupNode_none_iff rest k, Ne.symm h]

theorem keysOf_append (N M : List (String × GraphNode)) :
    keysOf (N ++ M) = keysOf N ++ keysOf M := by
  simp [keysOf]


theorem nodeCand_id (nv : Finset String) (row : RawRow) (key : String) (value : PValue)
    (nid : String) (nd : GraphNode)
    (h : nodeCand nv row (key, value) = some (nid, nd)) : nd.id = nid := by
  unfold nodeCand at h
  by_cases hh : pyEndsWith key "_labels" = true
  · simp [hh] at h
  · simp only [hh, Bool.false_eq_true, if_false] at h
    cases value with
    | vmap es =>
        by_cases hn : key ∈ nv
        · simp only [hn, if_true] at h
          cases hip : nodeIdProp es <;> rw [hip] at h <;> simp at h
          obtain ⟨h1, h2⟩ := h
          rw [← h2, ← h1]
          rfl
        · simp [hn] at h
    | vnull => simp at h
    | vdate s => simp at h
    | vdatetime s => simp at h
    | vlist xs => simp at h
    | vtuple xs => simp at h
    | vint n => simp at h
    | vfloat s => simp at h
    | vstr s => simp at h
    | vbool b => simp at h
    | vother s => simp at h

theorem nodesStep_exists_append (nv : Finset String) (row : RawRow)
    (N : List (String × GraphNode)) (c : String × PValue) :
    ∃ t, nodesStep nv row N c = N ++ t := by
  cases hc : nodeCand nv row c with
  | none => exact ⟨[], by simp [nodesStep, hc]⟩
  | some p =>
      obtain ⟨nid, nd⟩ := p
      cases hl : lookupNode N nid with
      | some n => exact ⟨[], by simp [nodesStep, hc, hl]⟩
      | none => exact ⟨[(nid, nd)], by simp [nodesStep, hc, hl]⟩

theorem foldl_nodesStep_exists_append (nv : Finset String) (row : RawRow) :
    ∀ (cols : List (String × PValue)) (N : List (String × GraphNode)),
      ∃ t, cols.foldl (nodesStep nv row) N = N ++ t
  | [], N => ⟨[], by simp⟩
  | c :: cols, N => by
      obtain ⟨t1, h1⟩ := nodesStep_exists_append nv row N c
      obtain ⟨t2, h2⟩ := foldl_nodesStep_exists_append nv row cols (nodesStep nv row N c)
      exact ⟨t1 ++ t2, by rw [List.foldl_cons, h2, h1, List.append_assoc]⟩

theorem foldl_nodesStep_absorb (nv : Finset String) (row : RawRow) :
    ∀ (cols : List (String × PValue)) (N : List (String × GraphNode)),
      (∀ c ∈ cols, ∀ nid nd, nodeCand nv row c = some (nid, nd) → nid ∈ keysOf N) →
      cols.foldl (nodesStep nv row) N = N
  | [], _, _ => rfl
  | c :: cols, N, h => by
      have hstep : nodesStep nv row N c = N := by
        cases hc : nodeCand nv row c with
        | none => simp [nodesStep, hc]
        | some p =>
            obtain ⟨nid, nd⟩ := p
            have hin : nid ∈ keysOf N := h c (List.mem_cons_self c cols) nid nd hc
            cases hl : lookupNode N nid with
            | some _ => simp [nodesStep, hc, hl]
            | none => exact absurd hin ((lookupNode_none_iff N nid).mp hl)
      rw [List.foldl_cons, hstep]
      exact foldl_nodesStep_absorb nv row cols N
        (fun c' hm => h c' (List.mem_cons_of_mem c hm))

theorem foldl_nodesStep_covers (nv : Finset String) (row : RawRow) :
    ∀ (cols : List (String × PValue)) (N : List (String × GraphNode))
      (c : String × PValue) (nid : String) (nd : GraphNode),
      c ∈ cols → nodeCand nv row c = some (nid, nd) →
      nid ∈ keysOf (cols.foldl (nodesStep nv row) N)
  | [], _, _, _, _, hm, _ => absurd hm (List.not_mem_nil _)
  | c0 :: cols, N, c, nid, nd, hm, hc => by
      rw [List.foldl_cons]
      rcases List.mem_cons.mp hm with rfl | hm'
      · have h1 : nid ∈ keysOf (nodesStep nv row N c) := by
          cases hl : lookupNode N nid with
          | some _ =>
              by_cases hms : nid ∈ keysOf N
              · have : nodesStep nv row N c = N := by simp [nodesStep, hc, hl]
                rw [this]
                exact hms
              · rw [(lookupNode_none_iff N nid).mpr hms] at hl
                exact Option.noConfusion hl
          | none =>
              have : nodesStep nv row N c = N ++ [(nid, nd)] := by simp [nodesStep, hc, hl]
              rw [this, keysOf_append]
              simp [keysOf]
        obtain ⟨t, ht⟩ := foldl_nodesStep_exists_append nv row cols (nodesStep nv row N c)
        rw [ht, keysOf_append]
        exact List.mem_append_left _ h1
      · exact foldl_nodesStep_covers nv row cols _ c nid nd hm' hc

theorem nodesStep_nodup (nv : Finset String) (row : RawRow)
    (N : List (String × GraphNode)) (c : String × PValue)
    (h : (keysOf N).Nodup) : (keysOf (nodesStep nv row N c)).Nodup := by
  cases hc : nodeCand nv row c with
  | none => simpa [nodesStep, hc] using h
  | some p =>
      obtain ⟨nid, nd⟩ := p
      cases hl : lookupNode N nid with
      | some _ => simpa [nodesStep, hc, hl] using h
      | none =>
          have hnm : nid ∉ keysOf N := (lookupNode_none_iff N nid).mp hl
          have : nodesStep nv row N c = N ++ [(nid, nd)] := by simp [nodesStep, hc, hl]
          rw [this, keysOf_append]
          simp only [keysOf, List.map_cons, List.map_nil]
          rw [List.nodup_append]
          refine ⟨h, List.nodup_singleton _, ?_⟩
          intro a ha hb
          simp at hb
          subst hb
          exact absurd ha hnm

theorem nodesStep_idfield (nv : Finset String) (row : RawRow)
    (N : List (String × GraphNode)) (c : String × PValue)
    (h : ∀ p ∈ N, (p.2).id = p.1) : ∀ p ∈ nodesStep nv row N c, (p.2).id = p.1 := by
  cases hc : nodeCand nv row c with
  | none =>
      have : nodesStep nv row N c = N := by simp [nodesStep, hc]
      rw [this]
      exact h
  | some p =>
      obtain ⟨nid, nd⟩ := p
      cases hl : lookupNode N nid with
      | some _ =>
          have : nodesStep nv row N c = N := by simp [nodesStep, hc, hl]
          rw [this]
          exact h
      | none =>
          have hstep : nodesStep nv row N c = N ++ [(nid, nd)] := by simp [nodesStep, hc, hl]
          rw [hstep]
          intro q hq
          rcases List.mem_append.mp hq with hq1 | hq2
          · exact h q hq1
          · have hq3 : q = (nid, nd) := by simpa using hq2
            subst hq3
            obtain ⟨key, value⟩ := c
            exact nodeCand_id nv row key value nid nd hc

/-! ## Row- and rows-level characterizations of the loop -/

/-- The nodes-only fold over the rows (each row supplies its own labels map). -/
def nodesRows (nv : Finset String) (N : List (String × GraphNode)) :
    List RawRow → List (String × GraphNode)
  | [] => N
  | row :: rows => nodesRows nv (row.foldl (nodesStep nv row) N) rows

theorem foldl_processColumn_nodes (nv rv : Finset String) (row : RawRow) :
    ∀ (cols : List (String × PValue)) (st : ExtractState),
      (cols.foldl (processColumn nv rv row) st).nodes = cols.foldl (nodesStep nv row) st.nodes
  | [], _ => rfl
  | c :: cols, st => by
      rw [List.foldl_cons, List.foldl_cons,
        foldl_processColumn_nodes nv rv row cols (processColumn nv rv row st c),
        processColumn_nodes]

theorem foldl_processColumn_rels (nv rv : Finset String) (row : RawRow) :
    ∀ (cols : List (String × PValue)) (st : ExtractState),
      (cols.foldl (processColumn nv rv row) st).rels
        = st.rels ++ cols.filterMap (relCand nv rv)
  | [], st => by simp
  | c :: cols, st => by
      rw [List.foldl_cons,
        foldl_processColumn_rels nv rv row cols (processColumn nv rv row st c),
        processColumn_rels, List.filterMap_cons]
      cases relCand nv rv c <;> simp

theorem foldl_processRow_nodes (nv rv : Finset String) :
    ∀ (rows : List RawRow) (st : ExtractState),
      (rows.foldl (processRow nv rv) st).nodes = nodesRows nv st.nodes rows
  | [], _ => rfl
  | row :: rows, st => by
      have h1 : (processRow nv rv st row).nodes = row.foldl (nodesStep nv row) st.nodes :=
        foldl_processColumn_nodes nv rv row row st
      rw [List.foldl_cons, foldl_processRow_nodes nv rv rows (processRow nv rv st row), h1]
      rfl

theorem processRows_nodes (nv rv : Finset String) (rows : List RawRow) :
    (processRows nv rv rows).nodes = nodesRows nv [] rows :=
  foldl_processRow_nodes nv rv rows ⟨[], []⟩

theorem foldl_processRow_rels (nv rv : Finset String) :
    ∀ (rows : List RawRow) (st : ExtractState),
      (rows.foldl (processRow nv rv) st).rels
        = st.rels ++ rows.flatMap (fun row => row.filterMap (relCand nv rv))
  | [], st => by simp
  | row :: rows, st => by
      rw [List.foldl_cons, foldl_processRow_rels nv rv rows (processRow nv rv st row)]
      unfold processRow
      rw [foldl_processColumn_rels]
      simp

theorem processRows_rels (nv rv : Finset String) (rows : List RawRow) :
    (processRows nv rv rows).rels
      = rows.flatMap (fun row => row.filterMap (relCand nv rv)) := by
  have := foldl_processRow_rels nv rv rows ⟨[], []⟩
  simpa using this

theorem nodesRows_exists_append (nv : Finset String) :
    ∀ (rows : List RawRow) (N : List (String × GraphNode)),
      ∃ t, nodesRows nv N rows = N ++ t
  | [], N => ⟨[], by simp [nodesRows]⟩
  | row :: rows, N => by
      obtain ⟨t1, h1⟩ := foldl_nodesStep_exists_append nv row row N
      obtain ⟨t2, h2⟩ := nodesRows_exists_append nv rows (row.foldl (nodesStep nv row) N)
      exact ⟨t1 ++ t2, by rw [nodesRows, h2, h1, List.append_assoc]⟩

theorem nodesRows_absorb (nv : Finset String) :
    ∀ (rows : List RawRow) (N : List (String × GraphNode)),
      (∀ row ∈ rows, ∀ c ∈ row, ∀ nid nd, nodeCand nv row c = some (nid, nd) →
        nid ∈ keysOf N) →
      nodesRows nv N rows = N
  | [], _, _ => rfl
  | row :: rows, N, h => by
      rw [nodesRows, foldl_nodesStep_absorb nv row row N
        (fun c hc => h row (List.mem_cons_self row rows) c hc)]
      exact nodesRows_absorb nv rows N
        (fun row' hr => h row' (List.mem_cons_of_mem row hr))

theorem nodesRows_covers (nv : Finset String) :
    ∀ (rows : List RawRow) (N : List (String × GraphNode)) (row : RawRow)
      (c : String × PValue) (nid : String) (nd : GraphNode),
      row ∈ rows → c ∈ row → nodeCand nv row c = some (nid, nd) →
      nid ∈ keysOf (nodesRows nv N rows)
  | [], _, _, _, _, _, hm, _, _ => absurd hm (List.not_mem_nil _)
  | row0 :: rows, N, row, c, nid, nd, hm, hcm, hc => by
      rw [nodesRows]
      rcases List.mem_cons.mp hm with rfl | hm'
      · have h1 : nid ∈ keysOf (row.foldl (nodesStep nv row) N) :=
          foldl_nodesStep_covers nv row row N c nid nd hcm hc
        obtain ⟨t, ht⟩ := nodesRows_exists_append nv rows (row.foldl (nodesStep nv row) N)
        rw [ht, keysOf_append]
        exact List.mem_append_left _ h1
      · exact nodesRows_covers nv rows _ row c nid nd hm' hcm hc

theorem nodesRows_idem (nv : Finset String) (rows : List RawRow)
    (N : List (String × GraphNode)) :
    nodesRows nv (nodesRows nv N rows) rows = nodesRows nv N rows :=
  nodesRows_absorb nv rows (nodesRows nv N rows)
    (fun row hr c hc nid nd hcand => nodesRows_covers nv rows N row c nid nd hr hc hcand)

theorem nodesRows_append_rows (nv : Finset String) :
    ∀ (rows1 rows2 : List RawRow) (N : List (String × GraphNode)),
      nodesRows nv N (rows1 ++ rows2) = nodesRows nv (nodesRows nv N rows1) rows2
  | [], _, _ => rfl
  | row :: rows1, rows2, N => by
      rw [List.cons_append, nodesRows, nodesRows, nodesRows_append_rows nv rows1 rows2]

theorem foldl_nodesStep_nodup (nv : Finset String) (row : RawRow) :
    ∀ (cols : List (String × PValue)) (N : List (String × GraphNode)),
      (keysOf N).Nodup → (keysOf (cols.foldl (nodesStep nv row) N)).Nodup
  | [], _, h => h
  | c :: cols, N, h => by
      rw [List.foldl_cons]
      exact foldl_nodesStep_nodup nv row cols (nodesStep nv row N c)
        (nodesStep_nodup nv row N c h)

theorem foldl_nodesStep_idfield (nv : Finset String) (row : RawRow) :
    ∀ (cols : List (String × PValue)) (N : List (String × GraphNode)),
      (∀ p ∈ N, (p.2).id = p.1) → ∀ p ∈ cols.foldl (nodesStep nv row) N, (p.2).id = p.1
  | [], _, h => h
  | c :: cols, N, h => by
      rw [List.foldl_cons]
      exact foldl_nodesStep_idfield nv row cols (nodesStep nv row N c)
        (nodesStep_idfield nv row N c h)

theorem nodesRows_nodup (nv : Finset String) :
    ∀ (rows : List RawRow) (N : List (String × GraphNode)),
      (keysOf N).Nodup → (keysOf (nodesRows nv N rows)).Nodup
  | [], _, h => h
  | row :: rows, N, h => by
      rw [nodesRows]
      exact nodesRows_nodup nv rows _ (foldl_nodesStep_nodup nv row row N h)

theorem nodesRows_idfield (nv : Finset String) :
    ∀ (rows : List RawRow) (N : List (String × GraphNode)),
      (∀ p ∈ N, (p.2).id = p.1) → ∀ p ∈ nodesRows nv N rows, (p.2).id = p.1
  | [], _, h => h
  | row :: rows, N, h => by
      rw [nodesRows]
      exact nodesRows_idfield nv rows _ (foldl_nodesStep_idfield nv row row N h)

/-! ## Degenerate variable sets -/

theorem nodeCand_empty (row : RawRow) (c : String × PValue) :
    nodeCand (∅ : Finset String) row c = none := by
  obtain ⟨key, value⟩ := c
  unfold nodeCand
  by_cases h : pyEndsWith key "_labels" = true
  · simp [h]
  · simp only [h, Bool.false_eq_true, if_false]
    cases value <;> simp

theorem relCand_rv_empty (nv : Finset String) (c : String × PValue) :
    relCand nv (∅ : Finset String) c = none := by
  obtain ⟨key, value⟩ := c
  unfold relCand
  by_cases h : pyEndsWith key "_labels" = true
  · simp [h]
  · simp only [h, Bool.false_eq_true, if_false]
    cases value <;> simp

theorem nodesRows_nv_empty (rows : List RawRow) (N : List (String × GraphNode)) :
    nodesRows (∅ : Finset String) N rows = N :=
  nodesRows_absorb _ rows N
    (fun row _ c _ nid nd hc => by
      rw [nodeCand_empty row c] at hc
      exact Option.noConfusion hc)

theorem processRows_empty_vars (rows : List RawRow) :
    processRows (∅ : Finset String) (∅ : Finset String) rows = ⟨[], []⟩ := by
  have h1 : (processRows (∅ : Finset String) (∅ : Finset String) rows).nodes = [] := by
    rw [processRows_nodes]
    exact nodesRows_nv_empty rows []
  have h2 : (processRows (∅ : Finset String) (∅ : Finset String) rows).rels = [] := by
    rw [processRows_rels]
    have h3 : ∀ row : RawRow, row.filterMap (relCand (∅ : Finset String) ∅) = [] :=
      fun row => List.filterMap_eq_nil_iff.mpr (fun c _ => relCand_rv_empty ∅ c)
    simp [h3]
  calc processRows (∅ : Finset String) (∅ : Finset String) rows
      = ⟨(processRows (∅ : Finset String) ∅ rows).nodes,
         (processRows (∅ : Finset String) ∅ rows).rels⟩ := rfl
    _ = ⟨[], []⟩ := by rw [h1, h2]

/-! ## Result-clause shape under disjoint variable lists -/

theorem flatMap_congr_mem {α β : Type} (f g : α → List β) :
    ∀ (l : List α), (∀ x ∈ l, f x = g x) → l.flatMap f = l.flatMap g
  | [], _ => rfl
  | x :: l, h => by
      simp only [List.flatMap_cons]
      rw [h x (List.mem_cons_self x l),
        flatMap_congr_mem f g l (fun y hy => h y (List.mem_cons_of_mem x hy))]

theorem returnParts_of_disjoint (q : String)
    (h : ∀ x ∈ extractedRels q, x ∉ extractedNodes q) :
    returnPartsOf q
      = (extractedNodes q).flatMap (fun n => [n, labelsAlias n]) ++ extractedRels q := by
  unfold returnPartsOf returnItemsOf
  rw [List.flatMap_append]
  congr 1
  · exact flatMap_congr_mem _ _ _ (fun x hx => by simp [hx])
  · rw [flatMap_congr_mem _ (fun x => [x]) _ (fun x hx => by simp [h x hx])]
    simp

/-! ## Remaining helper lemmas -/

theorem extractGraphData_eq (rows : List RawRow) (cypher : String) :
    extractGraphData rows cypher =
      if containsSub (pyUpperL cypher.data) "MATCH".data then
        (if (processRows (extractVariablesFromPattern cypher).1
                (extractVariablesFromPattern cypher).2 rows).nodes.length > 0
            ∨ (processRows (extractVariablesFromPattern cypher).1
                (extractVariablesFromPattern cypher).2 rows).rels.length > 0
         then some ⟨(processRows (extractVariablesFromPattern cypher).1
                      (extractVariablesFromPattern cypher).2 rows).nodes.map (fun p => p.2),
                    (processRows (extractVariablesFromPattern cypher).1
                      (extractVariablesFromPattern cypher).2 rows).rels⟩
         else none)
      else none := by
  by_cases h : containsSub (pyUpperL cypher.data) "MATCH".data = true <;>
    simp [extractGraphData, h]

theorem evp_no_match (cypher : String)
    (h : containsSub (pyUpperL cypher.data) "MATCH".data = false) :
    extractVariablesFromPattern cypher = (∅, ∅) := by
  unfold extractVariablesFromPattern
  cases hfs : findSub (pyUpperL cypher.data) "MATCH".data with
  | none => rfl
  | some i =>
      unfold containsSub at h
      rw [hfs] at h
      exact Bool.noConfusion h

theorem processRows_nodes_idfield (nv rv : Finset String) (rows : List RawRow) :
    ∀ p ∈ (processRows nv rv rows).nodes, (p.2).id = p.1 := by
  rw [processRows_nodes]
  exact nodesRows_idfield nv rows [] (by simp)

theorem processRows_nodes_nodup (nv rv : Finset String) (rows : List RawRow) :
    ((processRows nv rv rows).nodes.map (fun p => (p.2).id)).Nodup := by
  have hid := processRows_nodes_idfield nv rv rows
  have hkeys : ((processRows nv rv rows).nodes.map (fun p => (p.2).id))
      = keysOf (processRows nv rv rows).nodes := by
    unfold keysOf
    exact List.map_congr_left hid
  rw [hkeys, processRows_nodes]
  exact nodesRows_nodup nv rows [] (by simp [keysOf])

theorem processRows_nodes_doubling (nv rv : Finset String) (rows : List RawRow) :
    (processRows nv rv (rows ++ rows)).nodes = (processRows nv rv rows).nodes := by
  rw [processRows_nodes, processRows_nodes, nodesRows_append_rows, nodesRows_idem]

theorem processRows_rels_doubling (nv rv : Finset String) (rows : List RawRow) :
    (processRows nv rv (rows ++ rows)).rels
      = (processRows nv rv rows).rels ++ (processRows nv rv rows).rels := by
  rw [processRows_rels, processRows_rels, List.flatMap_append]

theorem firstTruthy_append_none : ∀ (l1 l2 : List (Option PValue)),
    firstTruthy l1 = none → firstTruthy (l1 ++ l2) = firstTruthy l2
  | [], _, _ => rfl
  | o :: l1, l2, h => by
      cases o with
      | none =>
          rw [List.cons_append]
          simp only [firstTruthy] at h ⊢
          exact firstTruthy_append_none l1 l2 h
      | some v =>
          rw [List.cons_append]
          simp only [firstTruthy] at h ⊢
          cases hv : truthy v with
          | false =>
              rw [hv] at h
              simp only [Bool.false_eq_true, if_false] at h ⊢
              exact firstTruthy_append_none l1 l2 h
          | true =>
              rw [hv] at h
              simp at h

/-! ## Claim theorems -/

/-- Claim C3: the orchestrator never raises past its boundary — for every
exception text raised during chain invocation, if it contains the store
syntax-error marker the result is exactly the fixed rephrase message in the
error field, otherwise the error field is "An error occurred: " followed by
the exception text; in both cases the graph data (and every other payload
field) is absent. -/
theorem graphdb_c3 :
    ∀ e : String,
      (queryOutcome (Except.error e)).error
          = some (if containsSub e.data errMarker.data then rephraseMessage
                  else "An error occurred: " ++ e)
      ∧ (queryOutcome (Except.error e)).graphData = none
      ∧ (queryOutcome (Except.error e)).answer = none
      ∧ (queryOutcome (Except.error e)).generatedCypher = none := by
  intro e
  unfold queryOutcome classifyChainError
  by_cases h : containsSub e.data errMarker.data = true <;> simp [h]

/-- Claim C5: for the query `MATCH (p:Person)-[r:ACTED_IN]->(m:Movie) RETURN
p.name`, the pattern scans yield node variables `p` then `m` (first-seen
order, `p` before `m`) and relationship variable `r`; the sets returned by
`_extract_variables_from_pattern` have exactly that membership (the Python
`set` return value carries no order of its own). -/
theorem graphdb_c5 :
    evpOrderedNodes "MATCH (p:Person)-[r:ACTED_IN]->(m:Movie) RETURN p.name" = ["p", "m"]
  ∧ evpOrderedRels "MATCH (p:Person)-[r:ACTED_IN]->(m:Movie) RETURN p.name" = ["r"]
  ∧ extractVariablesFromPattern "MATCH (p:Person)-[r:ACTED_IN]->(m:Movie) RETURN p.name"
      = ({"p", "m"}, {"r"}) := by decide

/-- Claim C8: the property serializer is total (a Lean function by
construction) and structure-preserving — null maps to null, temporal values
map to their text, mappings recurse key-wise preserving keys, sequences
(lists and tuples) recurse element-wise preserving order, int/float/str/bool
pass through unchanged, everything else maps to its text — and its output is
always JSON-safe. -/
theorem graphdb_c8 :
    serializeProp .vnull = .vnull
  ∧ (∀ s, serializeProp (.vdate s) = .vstr s)
  ∧ (∀ s, serializeProp (.vdatetime s) = .vstr s)
  ∧ (∀ es, serializeProp (.vmap es) = .vmap (serializeEntries es))
  ∧ (∀ k v es, serializeEntries (.cons k v es) = .cons k (serializeProp v) (serializeEntries es))
  ∧ (∀ es, entryKeys (serializeEntries es) = entryKeys es)
  ∧ (∀ xs, serializeProp (.vlist xs) = .vlist (serializeList xs))
  ∧ (∀ xs, serializeProp (.vtuple xs) = .vlist (serializeList xs))
  ∧ (∀ v xs, serializeList (.cons v xs) = .cons (serializeProp v) (serializeList xs))
  ∧ (∀ n : Int, serializeProp (.vint n) = .vint n)
  ∧ (∀ s, serializeProp (.vfloat s) = .vfloat s)
  ∧ (∀ s, serializeProp (.vstr s) = .vstr s)
  ∧ (∀ b, serializeProp (.vbool b) = .vbool b)
  ∧ (∀ s, serializeProp (.vother s) = .vstr s)
  ∧ (∀ v, jsonSafeProp (serializeProp v) = true) :=
  ⟨rfl, fun _ => rfl, fun _ => rfl, fun _ => rfl, fun _ _ _ => rfl, serializeEntries_keys,
   fun _ => rfl, fun _ => rfl, fun _ _ => rfl, fun _ => rfl, fun _ => rfl, fun _ => rfl,
   fun _ => rfl, fun _ => rfl, serializeProp_jsonSafe⟩

/-- Claim C9: for every query whose text does not contain the match keyword
(case-insensitively), the pattern extractor returns two empty sets and the
visualization query rewriter returns the input unchanged. -/
theorem graphdb_c9 :
    ∀ q : String, containsSub (pyUpperL q.data) "MATCH".data = false →
      extractVariablesFromPattern q = (∅, ∅) ∧ createGraphQuery q = q := by
  intro q h
  refine ⟨evp_no_match q h, ?_⟩
  unfold createGraphQuery
  rw [if_pos (by simp [h])]

/-- Witness for C9 at the query `RETURN 1`. -/
theorem graphdb_c9_witness :
    extractVariablesFromPattern "RETURN 1" = (∅, ∅)
      ∧ createGraphQuery "RETURN 1" = "RETURN 1" :=
  graphdb_c9 "RETURN 1" (by decide)

/-- The rewritten query as the claim words it: the match clause, then the
where clause when present, then a RETURN listing each node variable
immediately followed by its `labels(...)` alias and each relationship
variable alone, with the fixed trailing `LIMIT 50`.  (Spec-side definition,
to be compared with `createGraphQuery`.) -/
def claimedRewrittenQuery (q : String) : String :=
  String.mk
    (matchPatternOf q ++ whereClauseOf q ++ " RETURN ".data
      ++ (commaJoin
            ((extractedNodes q).flatMap (fun n => [n, labelsAlias n])
              ++ extractedRels q)).data
      ++ " LIMIT 50".data)

/-- Counterexample to claim C1 as stated: in `MATCH (a)-[a]->(b) RETURN a`
the variable `a` is extracted both as a node and as a relationship variable;
the rewriter then emits `a, labels(a) as a_labels` a second time for the
relationship occurrence instead of emitting the relationship variable alone,
so the produced query differs from the claimed shape. -/
theorem graphdb_c1_counterexample :
    createGraphQuery "MATCH (a)-[a]->(b) RETURN a"
        = "MATCH (a)-[a]->(b) RETURN a, labels(a) as a_labels, b, labels(b) as b_labels, a, labels(a) as a_labels LIMIT 50"
      ∧ claimedRewrittenQuery "MATCH (a)-[a]->(b) RETURN a"
        = "MATCH (a)-[a]->(b) RETURN a, labels(a) as a_labels, b, labels(b) as b_labels, a LIMIT 50"
      ∧ createGraphQuery "MATCH (a)-[a]->(b) RETURN a"
          ≠ claimedRewrittenQuery "MATCH (a)-[a]->(b) RETURN a" := by
  decide

/-- Claim C1 (amended): for the query `MATCH (p:Person)-[r:ACTED_IN]->
(m:Movie) RETURN p.name` the rewriter emits the claimed query verbatim; and
in general, for every query with a match clause, at least one extracted
variable, and no variable extracted both as a node and as a relationship,
the rewritten query is the match clause, then the where clause when present,
then a RETURN listing each node variable immediately followed by its labels
alias and each relationship variable alone, with the trailing cap LIMIT 50. -/
theorem graphdb_c1 :
    createGraphQuery "MATCH (p:Person)-[r:ACTED_IN]->(m:Movie) RETURN p.name"
        = "MATCH (p:Person)-[r:ACTED_IN]->(m:Movie) RETURN p, labels(p) as p_labels, m, labels(m) as m_labels, r LIMIT 50"
      ∧ ∀ q : String,
          containsSub (pyUpperL q.data) "MATCH".data = true →
          returnItemsOf q ≠ [] →
          (∀ x ∈ extractedRels q, x ∉ extractedNodes q) →
          createGraphQuery q = claimedRewrittenQuery q := by
  refine ⟨by decide, ?_⟩
  intro q h1 h2 h3
  unfold createGraphQuery claimedRewrittenQuery
  rw [if_neg (by simp [h1]), if_neg h2, returnParts_of_disjoint q h3]

/-- Witness for the general part of C1 at the Person/ACTED_IN/Movie query. -/
theorem graphdb_c1_witness :
    createGraphQuery "MATCH (p:Person)-[r:ACTED_IN]->(m:Movie) RETURN p.name"
      = claimedRewrittenQuery "MATCH (p:Person)-[r:ACTED_IN]->(m:Movie) RETURN p.name" :=
  graphdb_c1.2 "MATCH (p:Person)-[r:ACTED_IN]->(m:Movie) RETURN p.name"
    (by decide) (by decide) (by decide)

/-- Claim C10: when a variable name is both a node variable and a
relationship variable, a property-bag value in that column is processed by
the node branch (the node-variable membership check precedes the
relationship-variable check) and never appends a relationship. -/
theorem graphdb_c10 :
    ∀ (nv rv : Finset String) (row : RawRow) (st : ExtractState) (key : String)
      (es : PEntries),
      key ∈ nv → key ∈ rv → pyEndsWith key "_labels" = false →
      processColumn nv rv row st (key, .vmap es) = processNode row st key es
      ∧ (processNode row st key es).rels = st.rels := by
  intro nv rv row st key es h1 h2 h3
  constructor
  · unfold processColumn
    rw [if_neg (by simp [h3])]
    simp [h1]
  · cases hip : nodeIdProp es with
    | none => simp [processNode, hip]
    | some prop =>
        cases hl : lookupNode st.nodes (key ++ "_" ++ pyStr prop) with
        | some n => simp [processNode, hip, hl]
        | none => simp [processNode, hip, hl]

/-- Witness for C10 with the variable `x` in both sets. -/
theorem graphdb_c10_witness :
    processColumn {"x"} {"x"} [] ⟨[], []⟩ ("x", .vmap (.cons "name" (.vstr "N") .nil))
        = processNode [] ⟨[], []⟩ "x" (.cons "name" (.vstr "N") .nil)
      ∧ (processNode [] ⟨[], []⟩ "x" (.cons "name" (.vstr "N") .nil)).rels = [] :=
  graphdb_c10 {"x"} {"x"} [] ⟨[], []⟩ "x" (.cons "name" (.vstr "N") .nil)
    (by decide) (by decide) (by decide)

/-- Counterexample to claim C7 as stated: for the property bag
`{id: "X", title: "T"}` (an id property, no name property, a title
property), the reconstructed node's display label is `"T"` — the title's
value — not the id's value `"X"`.  The display label uses the preference
order name, title, id (services.py line 359), while the synthetic id uses
name, id, title (line 354): the node id is derived from `"X"` but the label
from `"T"`. -/
theorem graphdb_c7_counterexample :
    pyGet (PEntries.cons "id" (.vstr "X") (.cons "title" (.vstr "T") .nil)) "name" = none
  ∧ pyGet (PEntries.cons "id" (.vstr "X") (.cons "title" (.vstr "T") .nil)) "id"
      = some (.vstr "X")
  ∧ extractGraphData
      [[("p", .vmap (PEntries.cons "id" (.vstr "X") (.cons "title" (.vstr "T") .nil)))]]
      "MATCH (p) RETURN p"
      = some ⟨[{ id := "p_X", label := "T",
                 labels := PList.cons (.vstr "P") .nil,
                 properties := PEntries.cons "id" (.vstr "X")
                   (.cons "title" (.vstr "T") .nil) }], []⟩
  ∧ ("T" : String) ≠ "X" := by decide

/-- Claim C7 (amended): the display label is derived with the preference
order name, then title, then id — not the synthetic id's order name, id,
title — so whenever a bag has neither a truthy name nor a truthy title and
a truthy id property, the display label equals the id property's value. -/
theorem graphdb_c7 :
    ∀ (es : PEntries) (key : String) (v : PValue),
      firstTruthy [pyGet es "name", pyGet es "title"] = none →
      pyGet es "id" = some v → truthy v = true →
      displayLabel es key = pyStr v := by
  intro es key v h1 h2 h3
  unfold displayLabel
  have hl : [pyGet es "name", pyGet es "title", pyGet es "id"]
      = [pyGet es "name", pyGet es "title"] ++ [pyGet es "id"] := rfl
  rw [hl, firstTruthy_append_none [pyGet es "name", pyGet es "title"] [pyGet es "id"] h1]
  simp [firstTruthy, h2, h3]

/-- Witness for C7 at the bag `{id: "X"}`. -/
theorem graphdb_c7_witness :
    displayLabel (PEntries.cons "id" (.vstr "X") .nil) "p" = pyStr (.vstr "X") :=
  graphdb_c7 (PEntries.cons "id" (.vstr "X") .nil) "p" (.vstr "X")
    (by decide) (by decide) (by decide)

/-- Counterexample to claim C4 as stated: for the row binding `r` (a
relationship variable of the query) to the bag
`{type: "T", start: 0, end: 1}` — which contains `type`, `start` and `end`
sub-fields — no relationship is appended: the guard `if start_id and
end_id:` tests Python truthiness, and the present-but-falsy `start` value
`0` causes the row to be skipped, so the whole extraction returns absent. -/
theorem graphdb_c4_counterexample :
    extractGraphData
      [[("r", .vmap (PEntries.cons "type" (.vstr "T")
          (.cons "start" (.vint 0) (.cons "end" (.vint 1) .nil))))]]
      "MATCH (a)-[r]->(b) RETURN r" = none := by decide

/-- Claim C4 (amended): the relationship list is exactly one appended entry
per qualifying column occurrence across the rows (never de-duplicated), and
a column qualifies when its name is a relationship variable and not a node
variable (and not a labels column), its value is a property bag, and the
bag's `start` and `end` sub-fields are present and truthy; the appended
entry uses the bag's `type` verbatim (defaulting to `RELATED_TO`), the
stringified `start`/`end` as endpoints, and the serialized remaining
entries as properties. -/
theorem graphdb_c4 :
    (∀ (nv rv : Finset String) (rows : List RawRow),
        (processRows nv rv rows).rels
          = rows.flatMap (fun row => row.filterMap (relCand nv rv)))
  ∧ (∀ (nv rv : Finset String) (st : ExtractState) (key : String) (es : PEntries)
        (t s e : PValue) (row : RawRow),
        key ∉ nv → key ∈ rv → pyEndsWith key "_labels" = false →
        pyGet es "type" = some t →
        pyGet es "start" = some s → truthy s = true →
        pyGet es "end" = some e → truthy e = true →
        processColumn nv rv row st (key, .vmap es)
          = { st with rels := st.rels ++
              [{ rtype := t, startNode := pyStr s, endNode := pyStr e,
                 properties := serializeEntries (filterRelEntries es) }] }) := by
  refine ⟨processRows_rels, ?_⟩
  intro nv rv st key es t s e row h1 h2 h3 h4 h5 h6 h7 h8
  unfold processColumn
  rw [if_neg (by simp [h3])]
  simp only [h1, h2, if_true, if_false]
  unfold processRel
  rw [h4, h5, h7]
  simp [h6, h8]

/-- Witness for the appending part of C4 at a concrete relationship bag. -/
theorem graphdb_c4_witness :
    processColumn ∅ {"r"} [] ⟨[], []⟩
      ("r", .vmap (PEntries.cons "type" (.vstr "T")
        (.cons "start" (.vstr "s1") (.cons "end" (.vstr "e2") .nil))))
      = { nodes := [], rels :=
          [{ rtype := .vstr "T", startNode := pyStr (.vstr "s1"),
             endNode := pyStr (.vstr "e2"),
             properties := serializeEntries (filterRelEntries
               (PEntries.cons "type" (.vstr "T")
                 (.cons "start" (.vstr "s1") (.cons "end" (.vstr "e2") .nil)))) }] } :=
  graphdb_c4.2 ∅ {"r"} ⟨[], []⟩ "r"
    (PEntries.cons "type" (.vstr "T")
      (.cons "start" (.vstr "s1") (.cons "end" (.vstr "e2") .nil)))
    (.vstr "T") (.vstr "s1") (.vstr "e2") []
    (by decide) (by decide) (by decide) (by decide) (by decide) (by decide)
    (by decide) (by decide)

/-- Claim C2: node reconstruction is deduplicating and idempotent — for every
variable sets and row sequence the accumulated nodes have pairwise distinct
synthetic ids, and processing the same rows again (and hence re-encountering
every id) adds and changes nothing, so the reconstructed node set (payload
level included) is stable. -/
theorem graphdb_c2 :
    (∀ (nv rv : Finset String) (rows : List RawRow),
        ((processRows nv rv rows).nodes.map (fun p => (p.2).id)).Nodup
      ∧ (processRows nv rv (rows ++ rows)).nodes = (processRows nv rv rows).nodes)
  ∧ (∀ (rows : List RawRow) (cypher : String),
        (((extractGraphData rows cypher).elim [] GraphPayload.nodes).map GraphNode.id).Nodup
      ∧ Option.map GraphPayload.nodes (extractGraphData (rows ++ rows) cypher)
          = Option.map GraphPayload.nodes (extractGraphData rows cypher)) := by
  constructor
  · intro nv rv rows
    exact ⟨processRows_nodes_nodup nv rv rows, processRows_nodes_doubling nv rv rows⟩
  · intro rows cypher
    constructor
    · rw [extractGraphData_eq]
      by_cases h : containsSub (pyUpperL cypher.data) "MATCH".data = true
      · simp only [h, if_true]
        split
        · simp only [Option.elim]
          rw [List.map_map]
          exact processRows_nodes_nodup _ _ rows
        · simp
      · simp [h]
    · rw [extractGraphData_eq rows cypher, extractGraphData_eq (rows ++ rows) cypher]
      by_cases h : containsSub (pyUpperL cypher.data) "MATCH".data = true
      · simp only [h, if_true]
        rw [processRows_nodes_doubling (extractVariablesFromPattern cypher).1
              (extractVariablesFromPattern cypher).2 rows,
            processRows_rels_doubling (extractVariablesFromPattern cypher).1
              (extractVariablesFromPattern cypher).2 rows]
        by_cases hc : (processRows (extractVariablesFromPattern cypher).1
              (extractVariablesFromPattern cypher).2 rows).nodes.length > 0
            ∨ (processRows (extractVariablesFromPattern cypher).1
                (extractVariablesFromPattern cypher).2 rows).rels.length > 0
        · have hc2 : (processRows (extractVariablesFromPattern cypher).1
                (extractVariablesFromPattern cypher).2 rows).nodes.length > 0
              ∨ ((processRows (extractVariablesFromPattern cypher).1
                  (extractVariablesFromPattern cypher).2 rows).rels
                ++ (processRows (extractVariablesFromPattern cypher).1
                    (extractVariablesFromPattern cypher).2 rows).rels).length > 0 := by
            rcases hc with hcl | hcr
            · exact Or.inl hcl
            · right
              rw [List.length_append]
              omega
          rw [if_pos hc2, if_pos hc]
          simp
        · have hc2 : ¬ ((processRows (extractVariablesFromPattern cypher).1
                (extractVariablesFromPattern cypher).2 rows).nodes.length > 0
              ∨ ((processRows (extractVariablesFromPattern cypher).1
                  (extractVariablesFromPattern cypher).2 rows).rels
                ++ (processRows (extractVariablesFromPattern cypher).1
                    (extractVariablesFromPattern cypher).2 rows).rels).length > 0) := by
            rw [List.length_append]
            omega
          rw [if_neg hc2, if_neg hc]
      · simp [h]

/-- Claim C6: the reconstructor returns an absent payload for zero rows, and
in general the payload is present if and only if the accumulated node count
plus relationship count is nonzero after processing all rows. -/
theorem graphdb_c6 :
    (∀ cypher : String, extractGraphData [] cypher = none)
  ∧ (∀ (rows : List RawRow) (cypher : String),
      extractGraphData rows cypher ≠ none
        ↔ (processRows (extractVariablesFromPattern cypher).1
              (extractVariablesFromPattern cypher).2 rows).nodes.length
            + (processRows (extractVariablesFromPattern cypher).1
                (extractVariablesFromPattern cypher).2 rows).rels.length ≠ 0) := by
  constructor
  · intro cypher
    rw [extractGraphData_eq]
    have h0 : processRows (extractVariablesFromPattern cypher).1
        (extractVariablesFromPattern cypher).2 ([] : List RawRow) = ⟨[], []⟩ := rfl
    rw [h0]
    simp
  · intro rows cypher
    rw [extractGraphData_eq]
    by_cases h : containsSub (pyUpperL cypher.data) "MATCH".data = true
    · simp only [h, if_true]
      by_cases hc : (processRows (extractVariablesFromPattern cypher).1
            (extractVariablesFromPattern cypher).2 rows).nodes.length > 0
          ∨ (processRows (extractVariablesFromPattern cypher).1
              (extractVariablesFromPattern cypher).2 rows).rels.length > 0
      · rw [if_pos hc]
        simp only [ne_eq, reduceCtorEq, not_false_eq_true, true_iff]
        omega
      · rw [if_neg hc]
        simp only [ne_eq, not_true_eq_false, false_iff, not_not]
        omega
    · have h' : containsSub (pyUpperL cypher.data) "MATCH".data = false := by
        simpa using h
      rw [if_neg (by simp [h']), evp_no_match cypher h']
      have h0 : processRows ((∅ : Finset String), (∅ : Finset String)).1
          ((∅ : Finset String), (∅ : Finset String)).2 rows
          = ⟨[], []⟩ := processRows_empty_vars rows
      rw [h0]
      simp
